import Mathlib

/-!
Verification development for the `python-ma` library (`ihm` package).

The definitions below are a shallow embedding of the Python source:

* `src/ihm/reader.py` — the identity-resolution layer (`_IDMapper.make_new`)
  and the generic field copier (`_Handler._copy_if_present`);
* `src/ihm/__init__.py` — the `System` object graph and its traversal
  methods (`_all_model_groups`, `_all_models`, `_all_protocols`,
  `_all_assemblies`, `_all_datasets`, `_make_complete_assembly`, ...),
  together with `Entity`, `AsymUnit`, `EntityRange`, `AsymUnitRange`.

Modelling conventions:

* Python object identity (`id(obj)`) is modelled by an `oid : Nat` field;
  two distinct Python objects are embedded as values with distinct `oid`s.
  `_remove_identical`, which deduplicates on `id(obj)`, is embedded as
  `remove_identical` keyed on an `oid` projection.
* Python `None` becomes `Option.none`; generators become eager `List`s
  (the traversal methods are pure, so laziness is unobservable here).
* `Dataset` objects may form cyclic `parents` graphs, which a Lean
  inductive value cannot represent, so datasets are embedded as their
  object identifiers (`Nat`) and the `parents` attribute is a heap
  function `Nat → List Nat` carried on the `System`.  The unbounded
  Python recursion of `_all_datasets_and_parents` is embedded with an
  explicit recursion budget (`fuel`); exhausting every finite budget
  models a Python `RecursionError` / non-termination.
* Python `dict` state (`_obj_by_id`, `seen_models`, `seen_entities`) is
  embedded as association lists / lists of seen keys; only membership and
  lookup are ever used on these dicts in the source.
-/

namespace IHM

/-- Embedding of `_IDMapper` (src/ihm/reader.py): `system_list` is the
category's owning list on the `System`, `obj_by_id` the per-category cache
from row identifier to previously created object. -/
structure IDMapper (α : Type) where
  system_list : List α
  obj_by_id : List (String × α)
deriving DecidableEq

/-- Embedding of `_IDMapper.make_new` (src/ihm/reader.py lines 15-25).
The Python constructor call `cls(*initargs)` followed by the stamp
`newobj._id = objid` is modelled by one function `construct` applied to
`objid`; a different `cls` or different `initargs` is a different
`construct`.  Returns the resolved object and the updated mapper state. -/
def make_new {α : Type} (m : IDMapper α) (construct : String → α)
    (objid : String) : α × IDMapper α :=
  match m.obj_by_id.lookup objid with
  | some obj => (obj, m)
  | none =>
    let newobj := construct objid
    (newobj, ⟨m.system_list ++ [newobj], (objid, newobj) :: m.obj_by_id⟩)

/-- An object's attribute store, as written by Python `setattr`:
a map from attribute name to optional value. -/
def AttrObj : Type := String → Option String

/-- Embedding of Python `setattr(obj, key, value)` on an `AttrObj`. -/
def setattr (obj : AttrObj) (key v : String) : AttrObj :=
  fun a => if a = key then some v else obj a

/-- A flat mmCIF record: field name to value when the field is present. -/
def Record : Type := String → Option String

/-- Embedding of `_Handler._copy_if_present` (src/ihm/reader.py lines
41-50): for each `key` in `keys` present in `data`, set `obj.key` from
`data[key]`; for each pair `(key, val)` of `mapkeys`, when `key` is
present in `data`, set `obj.val` from `data[key]`. -/
def copy_if_present (obj : AttrObj) (data : Record) (keys : List String)
    (mapkeys : List (String × String)) : AttrObj :=
  let obj1 := keys.foldl
    (fun o key => match data key with
                  | some v => setattr o key v
                  | none => o) obj
  mapkeys.foldl
    (fun o kv => match data kv.1 with
                 | some v => setattr o kv.2 v
                 | none => o) obj1

/-- Embedding of `Entity` (src/ihm/__init__.py lines 571-607).  `oid`
models Python object identity; `sequence`, `description`, `details` are
the constructor-set attributes.  Python `Entity.__eq__`/`__hash__`
compare entities by `sequence` only (lines 597-601); where the source
performs a dict membership test on entities, the embedding compares the
`sequence` fields. -/
structure Entity where
  oid : Nat
  sequence : String
  description : Option String
  details : Option String
deriving DecidableEq

/-- Embedding of `AsymUnit` (src/ihm/__init__.py lines 638-660). -/
structure AsymUnit where
  oid : Nat
  entity : Entity
  details : Option String
deriving DecidableEq

/-- Embedding of `EntityRange` (src/ihm/__init__.py lines 533-556):
holds the parent entity and the `(seq_id_begin, seq_id_end)` pair stored
by `__init__`.  Bounds are `Int` since Python places no constraint on
the integers passed in. -/
structure EntityRange where
  entity : Entity
  seq_id_range : Int × Int
deriving DecidableEq

/-- Embedding of `EntityRange.__init__` (src/ihm/__init__.py lines
541-544): stores the parent and the bounds exactly as given.  The source
body is `self.entity = entity` and
`self.seq_id_range = (seq_id_begin, seq_id_end)` plus a comment
`todo: check range for validity (at property read time)`; no check is
performed and no exception can be raised, so the embedding is total. -/
def EntityRange.init (entity : Entity) (seq_id_begin seq_id_end : Int) :
    EntityRange :=
  ⟨entity, (seq_id_begin, seq_id_end)⟩

/-- Embedding of `AsymUnitRange` (src/ihm/__init__.py lines 610-635). -/
structure AsymUnitRange where
  asym : AsymUnit
  seq_id_range : Int × Int
deriving DecidableEq

/-- Embedding of `AsymUnitRange.__init__` (src/ihm/__init__.py lines
618-621): stores the parent and the bounds exactly as given; like
`EntityRange.__init__` it performs no validation and cannot fail. -/
def AsymUnitRange.init (asym : AsymUnit) (seq_id_begin seq_id_end : Int) :
    AsymUnitRange :=
  ⟨asym, (seq_id_begin, seq_id_end)⟩

/-- An element of an `Assembly`: the source documents assemblies as lists
of `AsymUnit`, `AsymUnitRange`, `Entity` and `EntityRange` objects
(src/ihm/__init__.py lines 671-675). -/
inductive Component where
  | asym (a : AsymUnit)
  | asymRange (r : AsymUnitRange)
  | entity (e : Entity)
  | entityRange (r : EntityRange)
deriving DecidableEq

/-- Embedding of `Assembly` (src/ihm/__init__.py lines 663-692): a list
subclass with a name and description; `oid` models object identity. -/
structure Assembly where
  oid : Nat
  elements : List Component
  name : Option String
  description : Option String
deriving DecidableEq

/-- A dataset is embedded as its object identifier; the `parents`
attribute lives in `System.dataset_parents` (see the file comment). -/
abbrev DatasetId := Nat

/-- Embedding of `ihm.dataset.DatasetGroup` as used by the traversals in
src/ihm/__init__.py: a list of datasets with an object identity. -/
structure DatasetGroup where
  oid : Nat
  datasets : List DatasetId
deriving DecidableEq

/-- Embedding of `ihm.startmodel.Template` as used by `_all_templates`
and `_all_datasets_except_parents` (src/ihm/__init__.py lines 253-274):
only the `dataset` attribute is consulted by the embedded traversals. -/
structure Template where
  oid : Nat
  dataset : Option DatasetId
deriving DecidableEq

/-- Embedding of `ihm.startmodel.StartingModel` as used by the traversals
(src/ihm/__init__.py lines 196-203, 259-274). -/
structure StartingModel where
  oid : Nat
  dataset : Option DatasetId
  templates : List Template
deriving DecidableEq

/-- Embedding of `ihm.representation.Segment` as used by
`_all_starting_models` (src/ihm/__init__.py lines 196-203). -/
structure Segment where
  oid : Nat
  starting_model : Option StartingModel
deriving DecidableEq

/-- Embedding of `ihm.representation.Representation` as used by
`_all_representations`/`_all_segments` (src/ihm/__init__.py lines
182-194): a list of segments with an object identity. -/
structure Representation where
  oid : Nat
  segments : List Segment
deriving DecidableEq

/-- Embedding of `ihm.protocol.Step` as used by `_all_protocol_steps`,
`_all_assemblies` and `_all_dataset_groups`. -/
structure ProtocolStep where
  oid : Nat
  assembly : Option Assembly
  dataset_group : Option DatasetGroup
deriving DecidableEq

/-- Embedding of `ihm.analysis.Step` as used by `_all_analysis_steps`,
`_all_assemblies` and `_all_dataset_groups`. -/
structure AnalysisStep where
  oid : Nat
  assembly : Option Assembly
  dataset_group : Option DatasetGroup
deriving DecidableEq

/-- Embedding of `ihm.analysis.Analysis`: an ordered list of steps
(iterated by `_all_analysis_steps`, src/ihm/__init__.py lines 219-223). -/
structure Analysis where
  oid : Nat
  steps : List AnalysisStep
deriving DecidableEq

/-- Embedding of `ihm.protocol.Protocol` as used by the traversals: an
ordered list of steps and a list of analyses. -/
structure Protocol where
  oid : Nat
  steps : List ProtocolStep
  analyses : List Analysis
deriving DecidableEq

/-- Embedding of `ihm.restraint.Restraint` as used by `_all_assemblies`
and `_all_datasets_except_parents`. -/
structure Restraint where
  oid : Nat
  assembly : Option Assembly
  dataset : Option DatasetId
deriving DecidableEq

/-- Embedding of `ihm.model.Model` as used by the traversals in
src/ihm/__init__.py (the `ihm.model` module itself is not under src/;
its objects use default Python object identity for `__eq__`/`__hash__`,
as the spec's identity-dedup invariant and the repository's own
`MockModel`-based tests assume).  Attributes consulted by the embedded
traversals: `representation`, `protocol`, `assembly`. -/
structure Model where
  oid : Nat
  representation : Option Representation
  protocol : Option Protocol
  assembly : Option Assembly
deriving DecidableEq

/-- A model group is a list of models (`ihm.model.ModelGroup` is a list
subclass; the traversals only iterate it). -/
abbrev ModelGroup := List Model

/-- A state is a list of model groups; a state group is a list of
states (both are list subclasses, only iterated by the traversals). -/
abbrev State := List ModelGroup

/-- A state group, as iterated by `_all_model_groups`. -/
abbrev StateGroup := List State

/-- Embedding of the `System` fields consulted by the traversal methods
verified here (src/ihm/__init__.py lines 44-132); fields never read by
those methods (software, citations, locations, ensembles, ...) are
omitted.  `dataset_parents` is the heap view of every dataset's
`parents` attribute. -/
structure System where
  entities : List Entity
  asym_units : List AsymUnit
  orphan_assemblies : List Assembly
  complete_assembly : Assembly
  orphan_datasets : List DatasetId
  orphan_dataset_groups : List DatasetGroup
  orphan_representations : List Representation
  orphan_starting_models : List StartingModel
  restraints : List Restraint
  orphan_protocols : List Protocol
  state_groups : List StateGroup
  dataset_parents : DatasetId → List DatasetId


/-- Embedding of `_remove_identical` (src/ihm/__init__.py lines 26-35):
return only the objects of the input not seen before, keyed — like the
Python `seen_objs` dict keyed on `id(obj)` — on the `oid` projection,
keeping the first occurrence.  The same loop, with a fresh `seen` dict,
is also the per-group dedup inlined in `_all_models`. -/
def remove_identical {α : Type} (oid : α → Nat) (seen : List Nat) :
    List α → List α
  | [] => []
  | obj :: rest =>
    if oid obj ∈ seen then remove_identical oid seen rest
    else obj :: remove_identical oid (oid obj :: seen) rest

/-- Embedding of `System._all_model_groups` (src/ihm/__init__.py lines
163-169): every model group of every state of every state group, in
order. -/
def all_model_groups (s : System) : List ModelGroup :=
  s.state_groups.flatten.flatten

/-- Embedding of `System._all_models` (src/ihm/__init__.py lines
171-180): for each group, yield `(group, model)` pairs, skipping models
already seen in the `seen_models` dict of that group (the dict is fresh
per group, so deduplication is per-group only). -/
def all_models (s : System) : List (ModelGroup × Model) :=
  (all_model_groups s).flatMap
    (fun group => (remove_identical Model.oid [] group).map
      (fun model => (group, model)))

/-- Embedding of `System._all_representations` (src/ihm/__init__.py
lines 182-189): orphan representations chained with each model's
`representation` when set, duplicates filtered by `_remove_identical`. -/
def all_representations (s : System) : List Representation :=
  remove_identical Representation.oid []
    (s.orphan_representations ++
      (all_models s).filterMap (fun gm => gm.2.representation))

/-- Embedding of `System._all_segments` (src/ihm/__init__.py lines
191-194). -/
def all_segments (s : System) : List Segment :=
  (all_representations s).flatMap Representation.segments

/-- Embedding of `System._all_starting_models` (src/ihm/__init__.py
lines 196-203). -/
def all_starting_models (s : System) : List StartingModel :=
  remove_identical StartingModel.oid []
    (s.orphan_starting_models ++
      (all_segments s).filterMap Segment.starting_model)

/-- Embedding of `System._all_protocols` (src/ihm/__init__.py lines
205-212): orphan protocols chained with each model's `protocol` when
set, duplicates filtered by `_remove_identical`. -/
def all_protocols (s : System) : List Protocol :=
  remove_identical Protocol.oid []
    (s.orphan_protocols ++
      (all_models s).filterMap (fun gm => gm.2.protocol))

/-- Embedding of `System._all_protocol_steps` (src/ihm/__init__.py lines
214-217). -/
def all_protocol_steps (s : System) : List ProtocolStep :=
  (all_protocols s).flatMap Protocol.steps

/-- Embedding of `System._all_analysis_steps` (src/ihm/__init__.py lines
219-223). -/
def all_analysis_steps (s : System) : List AnalysisStep :=
  (all_protocols s).flatMap (fun p => p.analyses.flatMap Analysis.steps)

/-- Embedding of `System._all_assemblies` (src/ihm/__init__.py lines
225-240): the complete assembly first, then orphan assemblies, then
assemblies referenced by models, protocol steps, analysis steps and
restraints, skipping `None` references; duplicates may be present. -/
def all_assemblies (s : System) : List Assembly :=
  s.complete_assembly ::
    (s.orphan_assemblies ++
      (all_models s).filterMap (fun gm => gm.2.assembly) ++
      (all_protocol_steps s).filterMap ProtocolStep.assembly ++
      (all_analysis_steps s).filterMap AnalysisStep.assembly ++
      s.restraints.filterMap Restraint.assembly)

/-- Embedding of `System._all_dataset_groups` (src/ihm/__init__.py lines
242-251). -/
def all_dataset_groups (s : System) : List DatasetGroup :=
  s.orphan_dataset_groups ++
    (all_protocol_steps s).filterMap ProtocolStep.dataset_group ++
    (all_analysis_steps s).filterMap AnalysisStep.dataset_group

/-- Embedding of `System._all_templates` (src/ihm/__init__.py lines
253-257). -/
def all_templates (s : System) : List Template :=
  (all_starting_models s).flatMap StartingModel.templates

/-- Embedding of `System._all_datasets_except_parents`
(src/ihm/__init__.py lines 259-274): orphan datasets, then datasets of
all dataset groups, then starting-model, restraint and template
datasets, skipping `None` references; duplicates may be present. -/
def all_datasets_except_parents (s : System) : List DatasetId :=
  s.orphan_datasets ++
    (all_dataset_groups s).flatMap DatasetGroup.datasets ++
    (all_starting_models s).filterMap StartingModel.dataset ++
    s.restraints.filterMap Restraint.dataset ++
    (all_templates s).filterMap Template.dataset

/-- Outcome of the fuel-instrumented dataset traversal.  The source
recursion `_all_datasets_and_parents` can only produce a list of
datasets or recurse deeper; `outOfFuel` records that the given recursion
budget was exhausted (the Python process would still be recursing).
`cycleError` is the outcome the specification prescribes for cyclic
parent chains; it is included so that statement of that prescription is
expressible, but no code path of the source - hence of the embedding
below - ever produces it. -/
inductive TraversalOutcome where
  | ok (l : List DatasetId)
  | cycleError
  | outOfFuel
deriving DecidableEq

/-- Concatenation of dataset expansions over a list, propagating the
first non-`ok` outcome, exactly as a Python exception escaping
`for p in d.parents: for alld in _all_datasets_and_parents(p): ...`
aborts the whole iteration. -/
def expandList (f : DatasetId → TraversalOutcome) :
    List DatasetId → TraversalOutcome
  | [] => .ok []
  | p :: rest =>
    match f p with
    | .ok l1 =>
      match expandList f rest with
      | .ok l2 => .ok (l1 ++ l2)
      | e => e
    | e => e

/-- Embedding of the inner recursion `_all_datasets_and_parents` of
`System._all_datasets` (src/ihm/__init__.py lines 280-284): recursively
expand every parent of `d`, then yield `d` itself.  The source recurses
with no visited set and no depth bound; `fuel` makes that recursion a
total Lean function, with `outOfFuel` signalling that the budget was
exhausted before the recursion returned. -/
def datasetsAndParents (parents : DatasetId → List DatasetId) :
    Nat → DatasetId → TraversalOutcome
  | 0, _ => .outOfFuel
  | fuel + 1, d =>
    match expandList (datasetsAndParents parents fuel) (parents d) with
    | .ok l => .ok (l ++ [d])
    | e => e

/-- Embedding of `System._all_datasets` (src/ihm/__init__.py lines
276-287): every dataset of `_all_datasets_except_parents`, each expanded
into ancestors-then-self by `_all_datasets_and_parents`, under recursion
budget `fuel`. -/
def all_datasets (fuel : Nat) (s : System) : TraversalOutcome :=
  expandList (datasetsAndParents s.dataset_parents fuel)
    (all_datasets_except_parents s)

/-- Embedding of the dict membership test `entity in seen_entities` of
`System._make_complete_assembly`, where `seen_entities` is a dict keyed
by `Entity` objects: Python compares keys with `Entity.__eq__`, i.e. by
the `sequence` attribute alone (src/ihm/__init__.py lines 597-601). -/
def entity_in_dict (seen : List Entity) (e : Entity) : Bool :=
  seen.any (fun k => k.sequence = e.sequence)

/-- Embedding of `System._make_complete_assembly` (src/ihm/__init__.py
lines 319-332), returning the recomputed element list of the complete
assembly: first every asymmetric unit (recording its entity in the
`seen_entities` dict), then every entity of `entities` not in that
dict. -/
def make_complete_assembly (asym_units : List AsymUnit)
    (entities : List Entity) : List Component :=
  let seen_entities := asym_units.map AsymUnit.entity
  asym_units.map Component.asym ++
    (entities.filter (fun e => ¬ entity_in_dict seen_entities e)).map
      Component.entity


/-- A `System` with every collection empty, used as the base of the
concrete systems below (it corresponds to `ihm.System()` fresh from the
constructor, whose collections all start empty). -/
def sysEmpty : System where
  entities := []
  asym_units := []
  orphan_assemblies := []
  complete_assembly := ⟨0, [], some "Complete assembly", some "All known components"⟩
  orphan_datasets := []
  orphan_dataset_groups := []
  orphan_representations := []
  orphan_starting_models := []
  restraints := []
  orphan_protocols := []
  state_groups := []
  dataset_parents := fun _ => []

/-- Parent map of a dataset that is its own parent: dataset `0` has
`parents = [0]`. -/
def selfParents : DatasetId → List DatasetId :=
  fun d => if d = 0 then [0] else []

/-- A system holding one orphan dataset `0` whose `parents` list is
`[0]` (a direct ancestor cycle). -/
def sysC2 : System :=
  { sysEmpty with orphan_datasets := [0], dataset_parents := selfParents }

/-- Parent map of the chain d3 → d2 → d1: `parents(3) = [2]`,
`parents(2) = [1]`, `parents(1) = []`. -/
def chainParents : DatasetId → List DatasetId :=
  fun d => if d = 3 then [2] else if d = 2 then [1] else []

/-- A system holding one orphan dataset `3` with ancestor chain
3 → 2 → 1. -/
def sysC8 : System :=
  { sysEmpty with orphan_datasets := [3], dataset_parents := chainParents }

/-- First model group of the C4 scenario: `[m1, m2, m1]`. -/
def mgC4a (m1 m2 : Model) : ModelGroup := [m1, m2, m1]

/-- Second model group of the C4 scenario: `[m1, m1]`. -/
def mgC4b (m1 : Model) : ModelGroup := [m1, m1]

/-- A system with one state group, one state, and the two model groups
`[m1, m2, m1]` and `[m1, m1]`. -/
def sysC4 (m1 m2 : Model) : System :=
  { sysEmpty with state_groups := [[[mgC4a m1 m2, mgC4b m1]]] }

/-- A model with the given object identity and `protocol` attribute and
no representation or assembly. -/
def modelRef (oid : Nat) (p : Option Protocol) : Model := ⟨oid, none, p, none⟩

/-- A system with orphan protocols `[p1, p2]` and three models whose
`protocol` attributes are `None`, `p2`, `p1` in that order. -/
def sysC5 (p1 p2 : Protocol) : System :=
  { sysEmpty with
    orphan_protocols := [p1, p2],
    state_groups :=
      [[[[modelRef 10 none, modelRef 11 (some p2), modelRef 12 (some p1)]]]] }

/-- Concrete model with object identity 1. -/
def m1c : Model := ⟨1, none, none, none⟩

/-- Concrete model with object identity 2. -/
def m2c : Model := ⟨2, none, none, none⟩

/-- Concrete protocol with object identity 1. -/
def p1c : Protocol := ⟨1, [], []⟩

/-- Concrete protocol with object identity 2. -/
def p2c : Protocol := ⟨2, [], []⟩

/-- Concrete entity `e1` with sequence "AAA". -/
def e1c : Entity := ⟨1, "AAA", none, none⟩

/-- Concrete entity `e2` with sequence "CCC". -/
def e2c : Entity := ⟨2, "CCC", none, none⟩

/-- Concrete entity `e3` with sequence "GGG", never instantiated by an
asymmetric unit. -/
def e3c : Entity := ⟨3, "GGG", none, none⟩

/-- Concrete asymmetric unit `a1` instantiating `e1c`. -/
def a1c : AsymUnit := ⟨4, e1c, none⟩

/-- Concrete asymmetric unit `a2` instantiating `e2c`. -/
def a2c : AsymUnit := ⟨5, e2c, none⟩

/-- A distinct `Entity` instance (fresh object identity 99) with the
same sequence "AAA" as `e1c` but no asymmetric unit of its own. -/
def eDup : Entity := ⟨99, "AAA", none, none⟩

/-- Concrete entity of sequence length 3 for the range-bounds claim. -/
def eC3 : Entity := ⟨1, "ABC", none, none⟩

/-- Concrete asymmetric unit over `eC3` for the range-bounds claim. -/
def aC3 : AsymUnit := ⟨2, eC3, none⟩

/-- C1: a second `make_new` call with the same row identifier within one
read session returns the very same object as the first call and leaves
the mapper state — in particular the category's owning `system_list` —
unchanged, for every second constructor `c2` (so the constructor cannot
have been invoked: `c2` does not occur in the right-hand side). -/
theorem make_new_repeat_returns_cached {α : Type} (m : IDMapper α)
    (c1 c2 : String → α) (objid : String) :
    make_new (make_new m c1 objid).2 c2 objid = make_new m c1 objid := by
  cases h : m.obj_by_id.lookup objid with
  | some obj => simp [make_new, h]
  | none => simp [make_new, h, List.lookup]

/-- C9: `copy_if_present` never writes an attribute whose corresponding
record fields are absent: if field `a` is absent from `data` and every
`mapkeys` pair targeting attribute `a` has its source field absent from
`data`, then attribute `a` keeps its previous value. -/
theorem copy_if_present_absent_field_preserved (obj : AttrObj)
    (data : Record) (keys : List String) (mapkeys : List (String × String))
    (a : String) (hkey : data a = none)
    (hmap : ∀ kv ∈ mapkeys, kv.2 = a → data kv.1 = none) :
    copy_if_present obj data keys mapkeys a = obj a := by
  have hstep1 : ∀ (ks : List String) (o : AttrObj),
      (ks.foldl (fun o key => match data key with
                              | some v => setattr o key v
                              | none => o) o) a = o a := by
    intro ks
    induction ks with
    | nil => intro o; rfl
    | cons k rest ih =>
      intro o
      rw [List.foldl_cons, ih]
      cases hk : data k with
      | none => simp [hk]
      | some v =>
        have hne : a ≠ k := by
          intro heq
          rw [heq, hk] at hkey
          exact Option.noConfusion hkey
        simp [hk, setattr, hne]
  have hstep2 : ∀ (mks : List (String × String)) (o : AttrObj),
      (∀ kv ∈ mks, kv.2 = a → data kv.1 = none) →
      (mks.foldl (fun o kv => match data kv.1 with
                              | some v => setattr o kv.2 v
                              | none => o) o) a = o a := by
    intro mks
    induction mks with
    | nil => intro o _; rfl
    | cons kv rest ih =>
      intro o hall
      rw [List.foldl_cons, ih _ (fun p hp => hall p (List.mem_cons_of_mem kv hp))]
      cases hk : data kv.1 with
      | none => simp [hk]
      | some v =>
        have hne : a ≠ kv.2 := by
          intro heq
          have := hall kv (List.mem_cons_self kv rest) heq.symm
          rw [this] at hk
          exact Option.noConfusion hk
        simp [hk, setattr, hne]
  show (mapkeys.foldl _
    (keys.foldl _ obj)) a = obj a
  rw [hstep2 mapkeys _ hmap, hstep1 keys obj]

/-- C9 witness: concretely, copying from a record holding only
`entry_id` leaves the previously set `title` attribute untouched. -/
theorem copy_if_present_absent_field_preserved_witness :
    copy_if_present (setattr (fun _ => none) "title" "old")
      (setattr (fun _ => none) "entry_id" "eid")
      ["title"] [("entry_id", "id")] "title" = some "old" :=
  (copy_if_present_absent_field_preserved
    (setattr (fun _ => none) "title" "old")
    (setattr (fun _ => none) "entry_id" "eid")
    ["title"] [("entry_id", "id")] "title" (by decide) (by decide)).trans
    (by decide)

/-- In the self-parent graph, the recursion of
`_all_datasets_and_parents` starting at dataset 0 exhausts every finite
recursion budget. -/
theorem selfParents_diverges (fuel : Nat) :
    datasetsAndParents selfParents fuel 0 = .outOfFuel := by
  induction fuel with
  | zero => rfl
  | succ n ih => simp [datasetsAndParents, selfParents, expandList, ih]

/-- C2: on a system whose single dataset is its own parent, the full
dataset enumeration exhausts every finite recursion budget — the source
recursion has no cycle guard — and in particular never produces the
`cycleError` outcome the specification prescribes (no code path of
`_all_datasets` raises any cycle error). -/
theorem all_datasets_self_parent_diverges (fuel : Nat) :
    all_datasets fuel sysC2 = .outOfFuel ∧
    all_datasets fuel sysC2 ≠ .cycleError := by
  have h : all_datasets fuel sysC2 = .outOfFuel := by
    show expandList (datasetsAndParents selfParents fuel) [0] = .outOfFuel
    simp [expandList, selfParents_diverges fuel]
  exact ⟨h, by simp [h]⟩

/-- C8: enumerating a system holding the single dataset 3, with parent
chain 3 → 2 → 1, yields `[1, 2, 3]` — each dataset exactly once,
ancestors before descendants. -/
theorem all_datasets_ancestor_chain :
    all_datasets 10 sysC8 = .ok [1, 2, 3] := by decide

/-- C4: model enumeration deduplicates within each group only: with
group 1 = `[m1, m2, m1]` and group 2 = `[m1, m1]`, the enumeration
yields `(group 1, m1), (group 1, m2), (group 2, m1)` and the flat
cross-group model listing is `[m1, m2, m1]` — three entries, not
globally deduplicated. -/
theorem all_models_dedups_per_group (m1 m2 : Model) (h : m1.oid ≠ m2.oid) :
    all_models (sysC4 m1 m2) =
      [(mgC4a m1 m2, m1), (mgC4a m1 m2, m2), (mgC4b m1, m1)] ∧
    (all_models (sysC4 m1 m2)).map Prod.snd = [m1, m2, m1] := by
  have hsym : m2.oid ≠ m1.oid := Ne.symm h
  constructor <;>
    simp [all_models, all_model_groups, sysC4, sysEmpty, mgC4a, mgC4b,
      remove_identical, h, hsym]

/-- C4 witness: the per-group deduplication at two concrete distinct
models. -/
theorem all_models_dedups_per_group_witness :
    all_models (sysC4 m1c m2c) =
      [(mgC4a m1c m2c, m1c), (mgC4a m1c m2c, m2c), (mgC4b m1c, m1c)] ∧
    (all_models (sysC4 m1c m2c)).map Prod.snd = [m1c, m2c, m1c] :=
  all_models_dedups_per_group m1c m2c (by decide)

/-- C5: protocol enumeration chains the orphan protocols `[p1, p2]`
before the model-referenced protocols `None, p2, p1`, drops the `None`,
and deduplicates by object identity keeping first occurrences, yielding
exactly `[p1, p2]`. -/
theorem all_protocols_dedup (p1 p2 : Protocol) (h : p1.oid ≠ p2.oid) :
    all_protocols (sysC5 p1 p2) = [p1, p2] := by
  have hsym : p2.oid ≠ p1.oid := Ne.symm h
  simp [all_protocols, sysC5, sysEmpty, all_models, all_model_groups,
    modelRef, remove_identical, h, hsym]

/-- C5 witness: the protocol deduplication at two concrete distinct
protocols. -/
theorem all_protocols_dedup_witness :
    all_protocols (sysC5 p1c p2c) = [p1c, p2c] :=
  all_protocols_dedup p1c p2c (by decide)

/-- C6: the recomputed complete assembly lists all asymmetric units in
order, followed by the entities lacking a structural instance: for asym
units `[a1, a2]` over entities `e1, e2` and entity list `[e1, e2, e3]`
with `e3` structurally unused (its sequence matches no instantiated
entity), the result is `[a1, a2, e3]`. -/
theorem make_complete_assembly_order (a1 a2 : AsymUnit) (e3 : Entity)
    (h1 : e3.sequence ≠ a1.entity.sequence)
    (h2 : e3.sequence ≠ a2.entity.sequence) :
    make_complete_assembly [a1, a2] [a1.entity, a2.entity, e3] =
      [.asym a1, .asym a2, .entity e3] := by
  have h1s : a1.entity.sequence ≠ e3.sequence := Ne.symm h1
  have h2s : a2.entity.sequence ≠ e3.sequence := Ne.symm h2
  simp [make_complete_assembly, entity_in_dict, h1s, h2s]

/-- C6 witness: the complete-assembly derivation at concrete entities
with pairwise different sequences. -/
theorem make_complete_assembly_order_witness :
    make_complete_assembly [a1c, a2c] [a1c.entity, a2c.entity, e3c] =
      [.asym a1c, .asym a2c, .entity e3c] :=
  make_complete_assembly_order a1c a2c e3c (by decide) (by decide)

/-- C7: for every system, the first element of the full assembly
enumeration is the system's complete assembly. -/
theorem all_assemblies_complete_first (s : System) :
    (all_assemblies s).head? = some s.complete_assembly := rfl

/-- C10: the complete-assembly recomputation decides "entity lacking a
structural instance" by `Entity.__eq__`, i.e. by sequence value, not by
object identity: an entity `e` with no asymmetric unit of its own whose
sequence equals that of `a1`'s entity is omitted from the recomputed
complete assembly. -/
theorem make_complete_assembly_omits_value_equal (a1 : AsymUnit)
    (e : Entity) (h : e.sequence = a1.entity.sequence) :
    make_complete_assembly [a1] [a1.entity, e] = [.asym a1] := by
  simp [make_complete_assembly, entity_in_dict, h]

/-- C10 witness: `eDup` is a different object than `e1c = a1c.entity`
(object identities 99 and 1) with the same sequence "AAA", and it is
omitted. -/
theorem make_complete_assembly_omits_value_equal_witness :
    make_complete_assembly [a1c] [a1c.entity, eDup] = [.asym a1c] :=
  make_complete_assembly_omits_value_equal a1c eDup (by decide)

/-- C3: `EntityRange.__init__` and `AsymUnitRange.__init__` accept an
interval with begin > end and bounds outside [1, sequence length]
(sequence length 3 here) and store it verbatim: no `RangeError` is
raised — the constructors are total and no validation or clamping code
exists in the source. -/
theorem range_init_stores_invalid_bounds :
    eC3.sequence.length = 3 ∧
    EntityRange.init eC3 5 2 = ⟨eC3, (5, 2)⟩ ∧
    AsymUnitRange.init aC3 0 4 = ⟨aC3, (0, 4)⟩ := by decide

end IHM
